import Mathlib

/-!
# Formal model of the scheduling / repository-session layer of `modal_app.py`

This file gives a shallow embedding, in Lean 4, of the scheduling and
repository-session orchestration code in `src/modal/modal_app.py`, and proves
properties of that embedding.

Conventions of the embedding:

* Instants (timezone-aware UTC `datetime` values) are represented by the integer
  number of seconds since 1970-01-01T00:00:00Z.  Python compares aware datetimes
  by their UTC instant, which is exactly integer comparison here.  The
  sub-minute precision of the source (`second`, `microsecond`) is carried at
  second granularity; all datetimes the scheduler constructs have
  `second = microsecond = 0` via `replace(...)`.
* Calendar computations mirror CPython's `datetime` module internals
  (`_ord2ymd`, `_ymd2ord`, `_days_in_month`, `_is_leap`, `_days_before_month`,
  `_days_before_year` from `Lib/datetime.py`), written over `Int` with
  floor division `/` and floor modulus `%`, which agree with Python `//`, `%`.
* Fallible Python operations (`datetime.replace` raising `ValueError`,
  attribute errors on non-strings) are modelled with `Except PyErr`.
-/

/-- Python exception classes relevant to the modelled code. -/
inductive PyErr where
  | valueError
  | typeError
  | attributeError
  deriving DecidableEq, Repr

/-! ## CPython calendar internals (`Lib/datetime.py`) -/
/-- `_is_leap(year)` from CPython's `datetime.py`. -/
def isLeap (y : Int) : Bool :=
  y % 4 == 0 && (y % 100 != 0 || y % 400 == 0)

/-- `_DAYS_IN_MONTH[month]` from CPython's `datetime.py` (1-indexed table). -/
def daysInMonthTable (m : Int) : Int :=
  if m = 1 then 31 else if m = 2 then 28 else if m = 3 then 31
  else if m = 4 then 30 else if m = 5 then 31 else if m = 6 then 30
  else if m = 7 then 31 else if m = 8 then 31 else if m = 9 then 30
  else if m = 10 then 31 else if m = 11 then 30 else 31

/-- `_days_in_month(year, month)` from CPython's `datetime.py`. -/
def daysInMonth (y m : Int) : Int :=
  if m = 2 ∧ isLeap y then 29 else daysInMonthTable m

/-- `_DAYS_BEFORE_MONTH[month]` from CPython's `datetime.py` (1-indexed table). -/
def daysBeforeMonthTable (m : Int) : Int :=
  if m = 1 then 0 else if m = 2 then 31 else if m = 3 then 59
  else if m = 4 then 90 else if m = 5 then 120 else if m = 6 then 151
  else if m = 7 then 181 else if m = 8 then 212 else if m = 9 then 243
  else if m = 10 then 273 else if m = 11 then 304 else 334

/-- `_days_before_month(year, month)` from CPython's `datetime.py`. -/
def daysBeforeMonth (y m : Int) : Int :=
  daysBeforeMonthTable m + (if 2 < m ∧ isLeap y then 1 else 0)

/-- `_days_before_year(year)` from CPython's `datetime.py`. -/
def daysBeforeYear (y : Int) : Int :=
  (y - 1) * 365 + (y - 1) / 4 - (y - 1) / 100 + (y - 1) / 400

/-- `_ymd2ord(year, month, day)` from CPython's `datetime.py`: the proleptic
Gregorian ordinal, with day 1 = 0001-01-01. -/
def ymd2ord (y m d : Int) : Int :=
  daysBeforeYear y + daysBeforeMonth y m + d

/-- `_ord2ymd(n)` from CPython's `datetime.py`: ordinal to (year, month, day).
`divmod` on Python ints is floor division and floor modulus, which is `/`, `%`
on `Int`; `>> 5` on a nonnegative int is division by 32. -/
def ord2ymd (n : Int) : Int × Int × Int :=
  let n0 := n - 1
  let n400 := n0 / 146097
  let r400 := n0 % 146097
  let n100 := r400 / 36524
  let r100 := r400 % 36524
  let n4 := r100 / 1461
  let r4 := r100 % 1461
  let n1 := r4 / 365
  let rd := r4 % 365
  let year := n400 * 400 + 1 + n100 * 100 + n4 * 4 + n1
  if n1 = 4 ∨ n100 = 4 then
    (year - 1, 12, 31)
  else
    let leapyear := n1 = 3 ∧ (n4 ≠ 24 ∨ n100 = 3)
    let month := (rd + 50) / 32
    let preceding := daysBeforeMonthTable month + (if 2 < month ∧ leapyear then 1 else 0)
    let month' := if rd < preceding then month - 1 else month
    let preceding' :=
      if rd < preceding then
        preceding - (daysInMonthTable (month - 1)
          + (if month - 1 = 2 ∧ leapyear then 1 else 0))
      else preceding
    (year, month', rd - preceding' + 1)

/-! ## UTC instants as seconds since the Unix epoch

A timezone-aware UTC `datetime` is represented by its integer timestamp in
seconds.  `datetime` field access and `replace(...)` go through the ordinal
conversions above; `ymd2ord 1970 1 1 = 719163` is the epoch's ordinal. -/
/-- The proleptic-Gregorian ordinal of 1970-01-01 (`date(1970, 1, 1).toordinal()`). -/
def epochOrdinal : Int := 719163

/-- Whole days since the epoch (Python `divmod`-style floor division). -/
def tsDays (ts : Int) : Int := ts / 86400

/-- Second of the day, in `[0, 86400)`. -/
def tsSod (ts : Int) : Int := ts % 86400

/-- The `.year` field of the UTC datetime at timestamp `ts`. -/
def dtYear (ts : Int) : Int := (ord2ymd (tsDays ts + epochOrdinal)).1

/-- The `.month` field of the UTC datetime at timestamp `ts`. -/
def dtMonth (ts : Int) : Int := (ord2ymd (tsDays ts + epochOrdinal)).2.1

/-- The `.day` field of the UTC datetime at timestamp `ts`. -/
def dtDay (ts : Int) : Int := (ord2ymd (tsDays ts + epochOrdinal)).2.2

/-- The `.hour` field of the UTC datetime at timestamp `ts`. -/
def dtHour (ts : Int) : Int := tsSod ts / 3600

/-- The `.minute` field of the UTC datetime at timestamp `ts`. -/
def dtMinute (ts : Int) : Int := tsSod ts % 3600 / 60

/-- The `.second` field of the UTC datetime at timestamp `ts`. -/
def dtSecond (ts : Int) : Int := tsSod ts % 60

/-- Timestamp of the UTC datetime with the given calendar fields (assumed
valid); inverse direction of the field accessors. -/
def mkTs (y m d h mi s : Int) : Int :=
  (ymd2ord y m d - epochOrdinal) * 86400 + h * 3600 + mi * 60 + s

/-- `now.replace(hour=h, minute=mi, second=0, microsecond=0)`: keeps the date,
sets the time of day.  Python raises `ValueError` when a field is out of
range. -/
def replaceTime (ts h mi : Int) : Except PyErr Int :=
  if 0 ≤ h ∧ h ≤ 23 ∧ 0 ≤ mi ∧ mi ≤ 59 then
    .ok (tsDays ts * 86400 + h * 3600 + mi * 60)
  else .error .valueError

/-- `dt.replace(day=d)`: keeps year, month and time of day.  Python raises
`ValueError` when `d` is out of range for the month (`day is out of range
for month`). -/
def replaceDay (ts d : Int) : Except PyErr Int :=
  if 1 ≤ d ∧ d ≤ daysInMonth (dtYear ts) (dtMonth ts) then
    .ok (mkTs (dtYear ts) (dtMonth ts) d (dtHour ts) (dtMinute ts) (dtSecond ts))
  else .error .valueError

/-- `dt.replace(month=m)`: keeps year, day and time of day; `ValueError` when
the existing day is out of range for the new month. -/
def replaceMonth (ts m : Int) : Except PyErr Int :=
  if 1 ≤ m ∧ m ≤ 12 ∧ dtDay ts ≤ daysInMonth (dtYear ts) m then
    .ok (mkTs (dtYear ts) m (dtDay ts) (dtHour ts) (dtMinute ts) (dtSecond ts))
  else .error .valueError

/-- `dt.replace(year=y2, month=m2)`: keeps day and time of day; Python bounds
years to `[1, 9999]` and validates the kept day against the new month. -/
def replaceYearMonth (ts y2 m2 : Int) : Except PyErr Int :=
  if 1 ≤ y2 ∧ y2 ≤ 9999 ∧ 1 ≤ m2 ∧ m2 ≤ 12 ∧ dtDay ts ≤ daysInMonth y2 m2 then
    .ok (mkTs y2 m2 (dtDay ts) (dtHour ts) (dtMinute ts) (dtSecond ts))
  else .error .valueError

/-- `dt.replace(month=m2, day=d2)`: keeps year and time of day. -/
def replaceMonthDay (ts m2 d2 : Int) : Except PyErr Int :=
  if 1 ≤ m2 ∧ m2 ≤ 12 ∧ 1 ≤ d2 ∧ d2 ≤ daysInMonth (dtYear ts) m2 then
    .ok (mkTs (dtYear ts) m2 d2 (dtHour ts) (dtMinute ts) (dtSecond ts))
  else .error .valueError

/-- `dt.replace(year=y2)`: keeps month, day and time of day; `ValueError`
outside `[1, 9999]` or if the kept day is invalid in the new year (Feb 29). -/
def replaceYear (ts y2 : Int) : Except PyErr Int :=
  if 1 ≤ y2 ∧ y2 ≤ 9999 ∧ dtDay ts ≤ daysInMonth y2 (dtMonth ts) then
    .ok (mkTs y2 (dtMonth ts) (dtDay ts) (dtHour ts) (dtMinute ts) (dtSecond ts))
  else .error .valueError

/-- Python `date.weekday()`: Monday = 0 .. Sunday = 6. -/
def weekdayM (ts : Int) : Int := (tsDays ts + epochOrdinal + 6) % 7

/-! ## The recurrence engine (`calculate_next_run_at`, lines 948-1032)

`get_timezone_offset_hours` queries `zoneinfo` (an external collaborator) and
returns a float number of hours; the embedding takes the zone's UTC offset as
an integer number of minutes `offMin` supplied by the environment.  The two
float operations the source applies to it are modelled exactly for offsets
that are whole numbers of minutes:

* `int(offset_hours)` truncates toward zero;
* `(offset_hours % 1) * 60` is the nonnegative fractional part in minutes
  (Python's float `%` takes the sign of the divisor), i.e. `offMin % 60`. -/
/-- `int(offset_hours)`: truncation toward zero of `offMin / 60`. -/
def offsetWholeHours (offMin : Int) : Int :=
  if 0 ≤ offMin then offMin / 60 else -((-offMin) / 60)

/-- `int((offset_hours % 1) * 60)`: the fractional-hour part in minutes,
always nonnegative (floor modulus). -/
def offsetFracMinutes (offMin : Int) : Int := offMin % 60

/-- Lines 961-999 of `calculate_next_run_at`: convert the configured local
time of day to UTC, normalise minute and hour overflow, and anchor at today's
date (UTC) at that time, applying the day offset from the conversion.  This is
the common prefix of all four recurrence branches. -/
def scheduleAnchor (offMin hour minute now : Int) : Except PyErr Int :=
  let utcMinute0 := minute - offsetFracMinutes offMin
  let utcHour0 := hour - offsetWholeHours offMin
  let utcHour1 :=
    if utcMinute0 < 0 then utcHour0 - 1
    else if 60 ≤ utcMinute0 then utcHour0 + 1 else utcHour0
  let utcMinute1 :=
    if utcMinute0 < 0 then utcMinute0 + 60
    else if 60 ≤ utcMinute0 then utcMinute0 - 60 else utcMinute0
  let dayOffset :=
    if utcHour1 < 0 then (-1 : Int) else if 24 ≤ utcHour1 then 1 else 0
  let utcHour2 :=
    if utcHour1 < 0 then utcHour1 + 24
    else if 24 ≤ utcHour1 then utcHour1 - 24 else utcHour1
  match replaceTime now utcHour2 utcMinute1 with
  | .ok base => .ok (base + dayOffset * 86400)
  | .error e => .error e

/-- Python value stored under a prompt's `nextRunAt` key (`dict[str, Any]`). -/
inductive PyVal where
  | none
  | str (s : List Char)
  | int (n : Int)
  deriving DecidableEq, Repr

/-- Python truthiness of a `PyVal` (`if not next_run_at`). -/
def pyTruthy : PyVal → Bool
  | .none => false
  | .str s => !s.isEmpty
  | .int n => n != 0

/-- A stored scheduled prompt, with the fields the recurrence engine and the
scheduler loop read.  `timeOfDayHour`/`timeOfDayMinute` are the two integers
parsed from the `"HH:MM"` string `timeOfDay` (`int(time_parts[0])`,
`int(time_parts[1])`); `scheduleType`, `dayOfWeek`, `dayOfMonth` and
`enabled` carry the dictionary values with the source's `.get` defaults
already applied; `nextRunAt` is kept as a raw Python value. -/
structure SchedPrompt where
  timeOfDayHour : Int
  timeOfDayMinute : Int
  scheduleType : String
  dayOfWeek : Int
  dayOfMonth : Int
  enabled : Bool
  nextRunAt : PyVal
  deriving DecidableEq, Repr

/-- Lines 1001-1032 of `calculate_next_run_at`, producing the computed
`next_run` datetime (the source returns `next_run.isoformat()`; the
stringification is split off as `calculate_next_run_at` below).  `offMin` is
the zone's UTC offset in minutes at the evaluation instant, `now` the
evaluation instant. -/
def calculate_next_run (offMin : Int) (p : SchedPrompt) (now : Int) : Except PyErr Int :=
  match scheduleAnchor offMin p.timeOfDayHour p.timeOfDayMinute now with
  | .error e => .error e
  | .ok nextRun =>
    if p.scheduleType = "daily" then
      .ok (if nextRun ≤ now then nextRun + 86400 else nextRun)
    else if p.scheduleType = "weekly" then
      let targetDay := p.dayOfWeek
      let currentDay := weekdayM nextRun
      let currentDaySun := (currentDay + 1) % 7
      let daysUntil0 := (targetDay - currentDaySun) % 7
      let daysUntil := if daysUntil0 = 0 ∧ nextRun ≤ now then 7 else daysUntil0
      .ok (nextRun + daysUntil * 86400)
    else if p.scheduleType = "monthly" then
      match replaceDay nextRun p.dayOfMonth with
      | .error e => .error e
      | .ok nr =>
        if nr ≤ now then
          if dtMonth nr = 12 then replaceYearMonth nr (dtYear nr + 1) 1
          else replaceMonth nr (dtMonth nr + 1)
        else .ok nr
    else if p.scheduleType = "yearly" then
      match replaceMonthDay nextRun 1 1 with
      | .error e => .error e
      | .ok nr => if nr ≤ now then replaceYear nr (dtYear nr + 1) else .ok nr
    else .ok nextRun

/-! Proof-support decomposition of `scheduleAnchor`'s minute/hour
normalisation (same expressions, named). -/
/-- The normalised UTC minute (`utc_minute` after the overflow fix-up). -/
def anchorMinute (offMin minute : Int) : Int :=
  if minute - offMin % 60 < 0 then minute - offMin % 60 + 60
  else if 60 ≤ minute - offMin % 60 then minute - offMin % 60 - 60
  else minute - offMin % 60

/-- The UTC hour after the minute borrow/carry, before the day wrap. -/
def anchorHour1 (offMin hour minute : Int) : Int :=
  if minute - offMin % 60 < 0 then hour - offsetWholeHours offMin - 1
  else if 60 ≤ minute - offMin % 60 then hour - offsetWholeHours offMin + 1
  else hour - offsetWholeHours offMin

/-- The normalised UTC hour (`utc_hour` after the day-boundary wrap). -/
def anchorHour (offMin hour minute : Int) : Int :=
  if anchorHour1 offMin hour minute < 0 then anchorHour1 offMin hour minute + 24
  else if 24 ≤ anchorHour1 offMin hour minute then anchorHour1 offMin hour minute - 24
  else anchorHour1 offMin hour minute

/-- The day offset from the timezone conversion (`day_offset`). -/
def anchorDayOff (offMin hour minute : Int) : Int :=
  if anchorHour1 offMin hour minute < 0 then -1
  else if 24 ≤ anchorHour1 offMin hour minute then 1 else 0

/-! ## ISO 8601 formatting and parsing (dev) -/
/-- The character for a single decimal digit value. -/
def digitChar (n : Int) : Char := Char.ofNat (48 + n.toNat)

/-- Two-digit zero-padded decimal rendering, as `datetime.isoformat` uses. -/
def pad2 (n : Int) : List Char := [digitChar (n / 10), digitChar (n % 10)]

/-- Four-digit zero-padded decimal rendering (the year). -/
def pad4 (n : Int) : List Char :=
  [digitChar (n / 1000), digitChar (n / 100 % 10), digitChar (n / 10 % 10), digitChar (n % 10)]

/-- `datetime.isoformat()` for an aware UTC datetime with `microsecond = 0`:
`YYYY-MM-DDTHH:MM:SS+00:00` (25 characters). -/
def isoformatDT (ts : Int) : List Char :=
  pad4 (dtYear ts) ++ '-' :: pad2 (dtMonth ts) ++ '-' :: pad2 (dtDay ts)
    ++ 'T' :: pad2 (dtHour ts) ++ ':' :: pad2 (dtMinute ts) ++ ':' :: pad2 (dtSecond ts)
    ++ ['+', '0', '0', ':', '0', '0']

/-- Decimal value of a digit character. -/
def digitVal (c : Char) : Option Int :=
  if '0' ≤ c ∧ c ≤ '9' then some ((c.toNat : Int) - 48) else none

/-- Read a two-digit number. -/
def read2 (a b : Char) : Option Int := do
  let x ← digitVal a
  let y ← digitVal b
  pure (10 * x + y)

/-- Read a four-digit number. -/
def read4 (a b c d : Char) : Option Int := do
  let x ← digitVal a
  let y ← digitVal b
  let z ← digitVal c
  let w ← digitVal d
  pure (1000 * x + 100 * y + 10 * z + w)

/-- `datetime.fromisoformat` restricted to the aware fixed-width format
`YYYY-MM-DDTHH:MM:SS±HH:MM` that `isoformatDT` produces, with CPython's field
validation; every other string is rejected (`none`, modelling the raised
`ValueError`, and naive results whose comparison raises `TypeError`). The
result is the UTC timestamp of the parsed aware datetime. -/
def fromisoformat (l : List Char) : Option Int :=
  match l with
  | [y3, y2, y1, y0, g1, a1, a0, g2, b1, b0, tSep, h1, h0, c1, i1, i0, c2, s1, s0,
     sg, o1, o0, c3, q1, q0] =>
    if g1 = '-' ∧ g2 = '-' ∧ tSep = 'T' ∧ c1 = ':' ∧ c2 = ':' ∧ c3 = ':'
        ∧ (sg = '+' ∨ sg = '-') then
      match read4 y3 y2 y1 y0, read2 a1 a0, read2 b1 b0, read2 h1 h0,
          read2 i1 i0, read2 s1 s0, read2 o1 o0, read2 q1 q0 with
      | some y, some mo, some d, some h, some mi, some sec, some oh, some om =>
        if 1 ≤ y ∧ 1 ≤ mo ∧ mo ≤ 12 ∧ 1 ≤ d ∧ d ≤ daysInMonth y mo
            ∧ h ≤ 23 ∧ mi ≤ 59 ∧ sec ≤ 59 ∧ oh ≤ 23 ∧ om ≤ 59 then
          some (mkTs y mo d h mi sec
            - (if sg = '+' then 1 else -1) * (oh * 3600 + om * 60))
        else none
      | _, _, _, _, _, _, _, _ => none
    else none
  | _ => none

/-- `s.replace("Z", "+00:00")` on the character list. -/
def replaceZ : List Char → List Char
  | [] => []
  | c :: rest =>
    if c = 'Z' then '+' :: '0' :: '0' :: ':' :: '0' :: '0' :: replaceZ rest
    else c :: replaceZ rest

/-- `is_prompt_due(prompt, now)`, lines 1035-1067: `False` for a disabled
prompt or a missing/falsy `nextRunAt`; otherwise `nextRunAt.replace("Z",
"+00:00")` is parsed with `datetime.fromisoformat` and compared against
`now`.  A parse `ValueError`, and the `TypeError` from comparing a naive
result, are caught and yield `False`; both are folded into the parser
returning `none`.  A truthy non-string `nextRunAt` raises `AttributeError`
at `.replace`, which the `except (ValueError, TypeError)` clause does not
catch. -/
def is_prompt_due (p : SchedPrompt) (now : Int) : Except PyErr Bool :=
  if !p.enabled then .ok false
  else if !pyTruthy p.nextRunAt then .ok false
  else
    match p.nextRunAt with
    | .str s =>
      match fromisoformat (replaceZ s) with
      | some t => .ok (decide (t ≤ now))
      | none => .ok false
    | _ => .error .attributeError

/-- `calculate_next_run_at` proper (line 1032 `return next_run.isoformat()`):
the computed datetime rendered as an ISO string. -/
def calculate_next_run_at (offMin : Int) (p : SchedPrompt) (now : Int) :
    Except PyErr (List Char) :=
  match calculate_next_run offMin p now with
  | .ok t => .ok (isoformatDT t)
  | .error e => .error e

/-! ## Repository session and execution coordinator (`execute_prompt`) -/
/-- The external commands `execute_prompt` and `push_repo_changes` issue, in
program order (`subprocess.run` sites and the agent invocation). -/
inductive Cmd where
  | gitRevParse
  | gitRemoteSetUrl
  | gitConfigSafe
  | gitStash
  | gitFetch
  | gitResetHard
  | rmRf
  | gitClone
  | agent
  | gitStatus
  | gitConfigUser
  | gitAddAll
  | gitCommit
  | gitLogUnpushed
  | gitPush
  deriving DecidableEq, Repr

/-- Abstract state of a project's working directory on the repos volume. -/
structure RepoFS where
  dirExists : Bool
  validGit : Bool
  uncommitted : Bool
  unpushed : Nat
  workTree : Nat
  remoteUrl : Nat
  deriving DecidableEq, Repr

/-- Outcome of the external agent process. -/
inductive AgentOutcome where
  | timeout
  | exits (code : Int)
  deriving DecidableEq, Repr

/-- The environment an `execute_prompt` invocation runs against: outcomes of
the external collaborators (git network operations, the agent) and the fresh
session id minted when none is supplied. -/
structure ExecEnv where
  cloneOk : Bool
  fetchOk : Bool
  agent : AgentOutcome
  agentLeavesChanges : Bool
  agentTree : Nat
  upstreamTree : Nat
  cloneUrl : Nat
  freshId : Nat
  bookkeepingThrows : Bool
  deriving DecidableEq, Repr

/-- Result of preparing the working directory (lines 448-525). -/
structure PrepResult where
  trace : List Cmd
  fs : RepoFS
  ok : Bool
  deriving DecidableEq, Repr

/-- Lines 448-525 of `execute_prompt`: ensure the working directory is a
valid checkout.  An existing directory is validated with `git rev-parse`;
a valid one gets its remote URL refreshed and, for non-continuations, a
stash + fetch + hard reset to `origin/main` (reset skipped when the fetch
fails); an invalid one is deleted with `rm -rf`.  A missing directory is
cloned; clone failure raises `CalledProcessError` (`ok := false`). -/
def prepare_workdir (env : ExecEnv) (isCont : Bool) (st : RepoFS) : PrepResult :=
  let step1 : List Cmd × RepoFS :=
    if st.dirExists then
      if st.validGit then
        let stA := { st with remoteUrl := env.cloneUrl }
        if !isCont then
          let stB := { stA with uncommitted := false }
          if env.fetchOk then
            ([.gitRevParse, .gitRemoteSetUrl, .gitConfigSafe, .gitStash, .gitFetch,
               .gitResetHard],
             { stB with unpushed := 0, workTree := env.upstreamTree })
          else
            ([.gitRevParse, .gitRemoteSetUrl, .gitConfigSafe, .gitStash, .gitFetch], stB)
        else
          ([.gitRevParse, .gitRemoteSetUrl, .gitConfigSafe], stA)
      else
        ([.gitRevParse, .rmRf],
         { st with
            dirExists := false
            validGit := false
            uncommitted := false
            unpushed := 0 })
    else ([], st)
  if step1.2.dirExists then ⟨step1.1, step1.2, true⟩
  else if env.cloneOk then
    ⟨step1.1 ++ [.gitClone, .gitConfigSafe],
     { dirExists := true, validGit := true, uncommitted := false, unpushed := 0,
       workTree := env.upstreamTree, remoteUrl := env.cloneUrl }, true⟩
  else ⟨step1.1 ++ [.gitClone], step1.2, false⟩

/-- The dictionary `execute_prompt` returns: `hasPendingChanges` is only
present on the normal-return path (lines 701-707); the exception paths
(709-737) return an `error` key instead. -/
structure ExecResult where
  sessionId : Nat
  success : Bool
  hasPendingChanges : Option Bool
  errorReported : Bool
  deriving DecidableEq, Repr

/-- Full outcome of one `execute_prompt` invocation. -/
structure ExecOut where
  trace : List Cmd
  fs : RepoFS
  result : ExecResult
  deriving DecidableEq, Repr

/-- `execute_prompt(prompt, ..., session_id, ...)`, lines 359-737: resolve the
session id, prepare the working directory, run the agent, then (only when the
agent exited 0) inspect `git status`, committing any local changes or
reporting unpushed commits from prior runs; git-bookkeeping exceptions are
caught and logged (lines 632-635). -/
def execute_prompt (env : ExecEnv) (session_id : Option Nat) (st : RepoFS) : ExecOut :=
  let is_continuation := session_id.isSome
  let sid := session_id.getD env.freshId
  let prep := prepare_workdir env is_continuation st
  if !prep.ok then
    ⟨prep.trace, prep.fs,
     { sessionId := sid, success := false, hasPendingChanges := none,
       errorReported := true }⟩
  else
    match env.agent with
    | .timeout =>
      ⟨prep.trace ++ [.agent],
       { prep.fs with uncommitted := env.agentLeavesChanges, workTree := env.agentTree },
       { sessionId := sid, success := false, hasPendingChanges := none,
         errorReported := true }⟩
    | .exits code =>
      let stA := { prep.fs with
        uncommitted := env.agentLeavesChanges
        workTree := env.agentTree }
      if code = 0 then
        if env.bookkeepingThrows then
          ⟨prep.trace ++ [.agent, .gitStatus], stA,
           { sessionId := sid, success := true, hasPendingChanges := some false,
             errorReported := false }⟩
        else if stA.uncommitted then
          ⟨prep.trace ++ [.agent, .gitStatus, .gitConfigUser, .gitAddAll, .gitCommit],
           { stA with uncommitted := false, unpushed := stA.unpushed + 1 },
           { sessionId := sid, success := true, hasPendingChanges := some true,
             errorReported := false }⟩
        else if stA.unpushed ≠ 0 then
          ⟨prep.trace ++ [.agent, .gitStatus, .gitLogUnpushed], stA,
           { sessionId := sid, success := true, hasPendingChanges := some true,
             errorReported := false }⟩
        else
          ⟨prep.trace ++ [.agent, .gitStatus, .gitLogUnpushed], stA,
           { sessionId := sid, success := true, hasPendingChanges := some false,
             errorReported := false }⟩
      else
        ⟨prep.trace ++ [.agent], stA,
         { sessionId := sid, success := false, hasPendingChanges := some false,
           errorReported := false }⟩

/-- Result of `push_repo_changes` (lines 827-902). -/
structure PushOut where
  trace : List Cmd
  fs : RepoFS
  success : Bool
  pushedCommits : Nat
  deriving DecidableEq, Repr

/-- `push_repo_changes(project_name, repo_url)`, lines 827-902: the Publish
Gate.  Missing directory is an error; with no unpushed commits it returns
success without touching the network; otherwise `git push HEAD:main`. -/
def push_repo_changes (pushOk : Bool) (st : RepoFS) : PushOut :=
  if !st.dirExists then ⟨[], st, false, 0⟩
  else if st.unpushed = 0 then ⟨[.gitLogUnpushed], st, true, 0⟩
  else if pushOk then ⟨[.gitLogUnpushed, .gitPush], { st with unpushed := 0 }, true,
    st.unpushed⟩
  else ⟨[.gitLogUnpushed, .gitPush], st, false, 0⟩

/-! ## Scheduler loop (`check_scheduled_prompts`, lines 1083-1268) -/
/-- A prompt's `lastExecution` record as written by the scheduler. -/
structure LastExec where
  timestamp : Int
  ok : Bool
  deriving DecidableEq, Repr

/-- A stored prompt as the scheduler loop sees it: the recurrence fields plus
the project coordinates and the last-execution record.  The `gitRemoteUrl`
and `projectName` strings are empty when missing (Python falsiness). -/
structure CronPrompt where
  sched : SchedPrompt
  gitRemoteUrl : List Char
  projectName : List Char
  lastExecution : Option LastExec
  deriving DecidableEq, Repr

/-- What happened to one prompt in a scheduler cycle. -/
inductive StepOutcome where
  | skippedDisabled
  | skippedNotDue
  | errorMissingFields
  | executed (success : Bool)
  | errored
  deriving DecidableEq, Repr

/-- The per-prompt body of `check_scheduled_prompts` (lines 1126-1244):
skip disabled, skip not-due, record a per-prompt error when `gitRemoteUrl` or
`projectName` is missing (without touching `nextRunAt`), otherwise run
`execute_prompt` and — on the normal path at lines 1197-1203 and on the
exception path at lines 1225-1231 alike — update `lastExecution` and
recompute `nextRunAt`.  An exception raised by `calculate_next_run_at` inside
the `try` block falls into the same `except` handler, whose own recompute
would re-raise; uncaught exceptions propagate (the `Except.error` results).
`execOutcome` is the outcome of the `execute_prompt.remote` call: its
returned `success` flag, or the exception it raised. -/
def processPrompt (offMin now : Int) (execOutcome : Except PyErr Bool)
    (p : CronPrompt) : Except PyErr (CronPrompt × StepOutcome) :=
  if !p.sched.enabled then .ok (p, .skippedDisabled)
  else
    match is_prompt_due p.sched now with
    | .error e => .error e
    | .ok false => .ok (p, .skippedNotDue)
    | .ok true =>
      if p.gitRemoteUrl.isEmpty || p.projectName.isEmpty then
        .ok (p, .errorMissingFields)
      else
        match execOutcome with
        | .ok success =>
          let p1 := { p with lastExecution := some ⟨now, success⟩ }
          match calculate_next_run_at offMin p1.sched now with
          | .ok iso => .ok ({ p1 with sched.nextRunAt := .str iso }, .executed success)
          | .error _ =>
            let p2 := { p1 with lastExecution := some ⟨now, false⟩ }
            match calculate_next_run_at offMin p2.sched now with
            | .ok iso2 => .ok ({ p2 with sched.nextRunAt := .str iso2 }, .errored)
            | .error e2 => .error e2
        | .error _ =>
          let p2 := { p with lastExecution := some ⟨now, false⟩ }
          match calculate_next_run_at offMin p2.sched now with
          | .ok iso => .ok ({ p2 with sched.nextRunAt := .str iso }, .errored)
          | .error e2 => .error e2

/-! ## Theorems -/

set_option maxHeartbeats 4000000 in
/-- The components produced by `ord2ymd` form a valid calendar date, and
`ymd2ord` inverts `ord2ymd`: the round trip of CPython's ordinal/date
conversions is the identity on ordinals (for years from 1 up). -/
theorem ord2ymd_spec (n y m d : Int) (hn : 1 ≤ n) (h : ord2ymd n = (y, m, d)) :
    1 ≤ y ∧ 1 ≤ m ∧ m ≤ 12 ∧ 1 ≤ d ∧ d ≤ daysInMonth y m ∧ ymd2ord y m d = n := by
  unfold ord2ymd at h
  simp only [] at h
  generalize hq400 : (n - 1) / 146097 = n400 at h
  generalize hr400 : (n - 1) % 146097 = r400 at h
  generalize hq100 : r400 / 36524 = n100 at h
  generalize hr100 : r400 % 36524 = r100 at h
  generalize hq4 : r100 / 1461 = n4 at h
  generalize hr4 : r100 % 1461 = r4 at h
  generalize hq1 : r4 / 365 = n1 at h
  generalize hrd : r4 % 365 = rd at h
  simp only [ymd2ord, daysBeforeYear, daysBeforeMonth, daysInMonth, isLeap,
    Bool.and_eq_true, Bool.or_eq_true, beq_iff_eq, bne_iff_ne, decide_eq_true_eq]
  split at h
  · -- special branch: December 31 of previous year
    rw [Prod.mk.injEq, Prod.mk.injEq] at h
    obtain ⟨hy, hm, hd⟩ := h
    subst hy hm hd
    simp only [daysBeforeMonthTable, daysInMonthTable]
    norm_num
    rename_i hcase
    rcases hcase with h1 | h1
    · have e1 : r4 = 1460 := by omega
      have e2 : rd = 0 := by omega
      have e3 : n4 ≤ 23 := by omega
      have e4 : 0 ≤ n4 := by omega
      have e5 : 0 ≤ n100 ∧ n100 ≤ 3 := by omega
      have e6 : 0 ≤ n400 := by omega
      have hy4 : (n400 * 400 + 1 + n100 * 100 + n4 * 4 + n1 - 1 - 1) / 4
          = 100 * n400 + 25 * n100 + n4 := by omega
      have hy100 : (n400 * 400 + 1 + n100 * 100 + n4 * 4 + n1 - 1 - 1) / 100
          = 4 * n400 + n100 := by omega
      have hy400 : (n400 * 400 + 1 + n100 * 100 + n4 * 4 + n1 - 1 - 1) / 400
          = n400 := by omega
      split <;> omega
    · have e1 : r400 = 146096 := by omega
      have e2 : r100 = 0 ∧ n4 = 0 ∧ r4 = 0 ∧ n1 = 0 ∧ rd = 0 := by omega
      have e3 : 0 ≤ n400 := by omega
      have hy4 : (n400 * 400 + 1 + n100 * 100 + n4 * 4 + n1 - 1 - 1) / 4
          = 100 * n400 + 99 := by omega
      have hy100 : (n400 * 400 + 1 + n100 * 100 + n4 * 4 + n1 - 1 - 1) / 100
          = 4 * n400 + 3 := by omega
      have hy400 : (n400 * 400 + 1 + n100 * 100 + n4 * 4 + n1 - 1 - 1) / 400
          = n400 := by omega
      split <;> omega
  · -- normal branch
    rename_i hcase
    push_neg at hcase
    obtain ⟨hn1, hn100⟩ := hcase
    generalize hmh : (rd + 50) / 32 = mh at h
    have hb1 : 0 ≤ rd ∧ rd ≤ 364 := by omega
    have hb3 : 0 ≤ n1 ∧ n1 ≤ 3 := by omega
    have hb4 : 0 ≤ n4 ∧ n4 ≤ 24 := by omega
    have hb5 : 0 ≤ n100 ∧ n100 ≤ 3 := by omega
    have hb6 : 0 ≤ n400 := by omega
    have hy4 : (n400 * 400 + 1 + n100 * 100 + n4 * 4 + n1 - 1) / 4
        = 100 * n400 + 25 * n100 + n4 := by omega
    have hy100 : (n400 * 400 + 1 + n100 * 100 + n4 * 4 + n1 - 1) / 100
        = 4 * n400 + n100 := by omega
    have hy400 : (n400 * 400 + 1 + n100 * 100 + n4 * 4 + n1 - 1) / 400 = n400 := by omega
    have hmh1 : 1 ≤ mh := by omega
    have hmh2 : mh ≤ 12 := by omega
    interval_cases mh <;>
      (norm_num [daysBeforeMonthTable, daysInMonthTable] at h
       split_ifs at h <;>
         ((obtain ⟨hy, hm, hd⟩ := h
           subst hy hm hd
           norm_num [daysBeforeMonthTable, daysInMonthTable]) <;> omega))

example : ord2ymd 719163 = (1970, 1, 1) := by decide

example : ord2ymd (719163 + 19838) = (2024, 4, 25) := by decide

example : ymd2ord 2024 4 25 = 719163 + 19838 := by decide

example : ord2ymd 1 = (1, 1, 1) := by decide

example : ord2ymd 3652059 = (9999, 12, 31) := by decide

example : weekdayM 0 = 3 := by decide

example : dtYear 1713052800 = 2024 ∧ dtMonth 1713052800 = 4 ∧ dtDay 1713052800 = 14 := by
  decide

/-- C2: evaluating `calculate_next_run_at` for a `monthly` prompt with
`dayOfMonth = 31` at an instant whose UTC month has 30 days (2024-04-15)
raises `ValueError` from `next_run.replace(day=31)` — contradicting the
claim (and the spec's stated edge-case policy) that a configured day of
month greater than the month's length must not crash. -/
theorem c2_monthly_day31_raises :
    calculate_next_run 0 ⟨9, 0, "monthly", 1, 31, true, .none⟩ (mkTs 2024 4 15 12 0 0)
      = .error .valueError := by rfl

/-- Evaluation of the weekly branch of `calculate_next_run`. -/
theorem calculate_weekly_eq (offMin : Int) (p : SchedPrompt) (now anchor : Int)
    (hsched : p.scheduleType = "weekly")
    (hanchor : scheduleAnchor offMin p.timeOfDayHour p.timeOfDayMinute now = .ok anchor) :
    calculate_next_run offMin p now
      = .ok (anchor +
          (if (p.dayOfWeek - (weekdayM anchor + 1) % 7) % 7 = 0 ∧ anchor ≤ now then 7
           else (p.dayOfWeek - (weekdayM anchor + 1) % 7) % 7) * 86400) := by
  unfold calculate_next_run
  rw [hanchor, hsched]
  rfl

/-- C4: for `weekly` recurrence (day-of-week 0=Sunday..6=Saturday), when the
target day equals the anchor's weekday and the anchor is at or before `now`,
`calculate_next_run_at` advances the anchor by exactly 7 days, never 0; in
every other weekly case it advances by the day delta from the anchor's
weekday to the target modulo 7. -/
theorem c4_weekly_advance (offMin : Int) (p : SchedPrompt) (now anchor : Int)
    (hsched : p.scheduleType = "weekly")
    (hdow0 : 0 ≤ p.dayOfWeek) (hdow6 : p.dayOfWeek ≤ 6)
    (hanchor : scheduleAnchor offMin p.timeOfDayHour p.timeOfDayMinute now = .ok anchor) :
    (p.dayOfWeek = (weekdayM anchor + 1) % 7 ∧ anchor ≤ now →
      calculate_next_run offMin p now = .ok (anchor + 7 * 86400)) ∧
    (¬(p.dayOfWeek = (weekdayM anchor + 1) % 7 ∧ anchor ≤ now) →
      calculate_next_run offMin p now
        = .ok (anchor + ((p.dayOfWeek - (weekdayM anchor + 1) % 7) % 7) * 86400)) := by
  rw [calculate_weekly_eq offMin p now anchor hsched hanchor]
  have hwd : 0 ≤ (weekdayM anchor + 1) % 7 ∧ (weekdayM anchor + 1) % 7 ≤ 6 := by omega
  constructor
  · rintro ⟨h1, h2⟩
    rw [if_pos ⟨by omega, h2⟩]
  · intro hcon
    rw [if_neg (by
      rintro ⟨hz, hle⟩
      exact hcon ⟨by omega, hle⟩)]

theorem anchorMinute_bounds (offMin minute : Int) (hm : 0 ≤ minute ∧ minute ≤ 59) :
    0 ≤ anchorMinute offMin minute ∧ anchorMinute offMin minute ≤ 59 := by
  unfold anchorMinute
  split_ifs <;> omega

theorem anchorHour_bounds (offMin hour minute : Int)
    (hh : 0 ≤ hour ∧ hour ≤ 23) (ho : -720 ≤ offMin ∧ offMin ≤ 840) :
    (0 ≤ anchorHour offMin hour minute ∧ anchorHour offMin hour minute ≤ 23) ∧
    (-1 ≤ anchorDayOff offMin hour minute ∧ anchorDayOff offMin hour minute ≤ 1) := by
  have hw : -12 ≤ offsetWholeHours offMin ∧ offsetWholeHours offMin ≤ 14 := by
    unfold offsetWholeHours
    split <;> omega
  unfold anchorHour anchorDayOff anchorHour1
  split_ifs <;> omega

theorem scheduleAnchor_eq (offMin hour minute now : Int)
    (hh : 0 ≤ hour ∧ hour ≤ 23) (hm : 0 ≤ minute ∧ minute ≤ 59)
    (ho : -720 ≤ offMin ∧ offMin ≤ 840) :
    scheduleAnchor offMin hour minute now
      = .ok (tsDays now * 86400 + anchorHour offMin hour minute * 3600
          + anchorMinute offMin minute * 60 + anchorDayOff offMin hour minute * 86400) := by
  have hw : -12 ≤ offsetWholeHours offMin ∧ offsetWholeHours offMin ≤ 14 := by
    unfold offsetWholeHours
    split <;> omega
  unfold scheduleAnchor replaceTime offsetFracMinutes anchorHour anchorDayOff
    anchorHour1 anchorMinute
  simp only []
  split_ifs <;> first | rfl | (exfalso; omega)

/-- Evaluation of the daily branch of `calculate_next_run`. -/
theorem calculate_daily_eq (offMin : Int) (p : SchedPrompt) (now anchor : Int)
    (hsched : p.scheduleType = "daily")
    (hanchor : scheduleAnchor offMin p.timeOfDayHour p.timeOfDayMinute now = .ok anchor) :
    calculate_next_run offMin p now
      = .ok (if anchor ≤ now then anchor + 86400 else anchor) := by
  unfold calculate_next_run
  rw [hanchor, hsched]
  rfl

/-- The daily result is strictly between now - 24h and now + 48h
(helper for C3). -/
theorem daily_bounds (offMin : Int) (p : SchedPrompt) (now : Int)
    (hsched : p.scheduleType = "daily")
    (hh : 0 ≤ p.timeOfDayHour ∧ p.timeOfDayHour ≤ 23)
    (hm : 0 ≤ p.timeOfDayMinute ∧ p.timeOfDayMinute ≤ 59)
    (ho : -720 ≤ offMin ∧ offMin ≤ 840) :
    ∃ r, calculate_next_run offMin p now = .ok r ∧
      now - 86400 < r ∧ r < now + 2 * 86400 := by
  have heq := scheduleAnchor_eq offMin p.timeOfDayHour p.timeOfDayMinute now hh hm ho
  have hmb := anchorMinute_bounds offMin p.timeOfDayMinute hm
  have hhb := anchorHour_bounds offMin p.timeOfDayHour p.timeOfDayMinute hh ho
  have hts : now / 86400 * 86400 ≤ now ∧ now < now / 86400 * 86400 + 86400 := by omega
  have htd : tsDays now = now / 86400 := rfl
  refine ⟨_, calculate_daily_eq offMin p now _ hsched heq, ?_, ?_⟩ <;>
    (rw [htd] at heq ⊢ <;> split_ifs <;> omega)

example : fromisoformat (isoformatDT (mkTs 2024 1 15 16 45 0))
    = some (mkTs 2024 1 15 16 45 0) := by decide

example : isoformatDT 0
    = ('1' :: '9' :: '7' :: '0' :: '-' :: '0' :: '1' :: '-' :: '0' :: '1' :: 'T' :: '0'
        :: '0' :: ':' :: '0' :: '0' :: ':' :: '0' :: '0' :: '+' :: '0' :: '0' :: ':'
        :: '0' :: '0' :: []) := by decide

theorem digitVal_digitChar (n : Int) (h0 : 0 ≤ n) (h9 : n ≤ 9) :
    digitVal (digitChar n) = some n := by
  interval_cases n <;> decide

theorem read2_pad (n : Int) (h0 : 0 ≤ n) (h99 : n ≤ 99) :
    read2 (digitChar (n / 10)) (digitChar (n % 10)) = some n := by
  unfold read2
  rw [digitVal_digitChar _ (by omega) (by omega),
    digitVal_digitChar _ (by omega) (by omega)]
  show some (10 * (n / 10) + n % 10) = some n
  congr 1
  omega

theorem read4_pad (n : Int) (h0 : 0 ≤ n) (h99 : n ≤ 9999) :
    read4 (digitChar (n / 1000)) (digitChar (n / 100 % 10)) (digitChar (n / 10 % 10))
      (digitChar (n % 10)) = some n := by
  unfold read4
  rw [digitVal_digitChar _ (by omega) (by omega),
    digitVal_digitChar _ (by omega) (by omega),
    digitVal_digitChar _ (by omega) (by omega),
    digitVal_digitChar _ (by omega) (by omega)]
  show some (1000 * (n / 1000) + 100 * (n / 100 % 10) + 10 * (n / 10 % 10) + n % 10) = some n
  congr 1
  omega

theorem daysInMonth_bounds (y m : Int) :
    1 ≤ daysInMonth y m ∧ daysInMonth y m ≤ 31 := by
  unfold daysInMonth daysInMonthTable isLeap
  omega

theorem daysBeforeMonth_bounds (y m : Int) :
    0 ≤ daysBeforeMonth y m ∧ daysBeforeMonth y m ≤ 335 := by
  unfold daysBeforeMonth daysBeforeMonthTable isLeap
  omega

theorem ymd2ord_year_le (y m d n : Int) (hord : ymd2ord y m d = n)
    (hd : 1 ≤ d ∧ d ≤ 31) (hn : n ≤ 3652059) : y ≤ 9999 := by
  have hdbm := daysBeforeMonth_bounds y m
  unfold ymd2ord daysBeforeYear at hord
  omega

set_option maxHeartbeats 1000000 in
theorem fromisoformat_isoformatDT (ts : Int)
    (hlo : -62135596800 ≤ ts) (hhi : ts ≤ 253402300799) :
    fromisoformat (isoformatDT ts) = some ts := by
  have hn : 1 ≤ tsDays ts + epochOrdinal := by
    unfold tsDays epochOrdinal
    omega
  have hspec := ord2ymd_spec (tsDays ts + epochOrdinal)
    (dtYear ts) (dtMonth ts) (dtDay ts) hn rfl
  obtain ⟨hy1, hm1, hm2, hd1, hd2, hord⟩ := hspec
  have hd31 : dtDay ts ≤ 31 := le_trans hd2 (daysInMonth_bounds _ _).2
  have hy9999 : dtYear ts ≤ 9999 := by
    refine ymd2ord_year_le _ _ _ _ hord ⟨hd1, hd31⟩ ?_
    unfold tsDays epochOrdinal at hord ⊢
    omega
  have hh23 : 0 ≤ dtHour ts ∧ dtHour ts ≤ 23 := by
    unfold dtHour tsSod
    omega
  have hmi59 : 0 ≤ dtMinute ts ∧ dtMinute ts ≤ 59 := by
    unfold dtMinute tsSod
    omega
  have hs59 : 0 ≤ dtSecond ts ∧ dtSecond ts ≤ 59 := by
    unfold dtSecond tsSod
    omega
  unfold isoformatDT pad4 pad2
  simp only [List.cons_append, List.nil_append]
  simp only [fromisoformat]
  rw [if_pos (show (True ∧ True ∧ True ∧ True ∧ True ∧ True ∧ (True ∨ ('+' : Char) = '-')) from ⟨trivial, trivial, trivial, trivial, trivial, trivial, Or.inl trivial⟩)]
  rw [read4_pad _ (by omega) (by omega), read2_pad _ (by omega) (by omega),
    read2_pad _ (by omega) (by omega), read2_pad _ (by omega) (by omega),
    read2_pad _ (by omega) (by omega), read2_pad _ (by omega) (by omega)]
  rw [show read2 '0' '0' = some 0 from rfl]
  simp only []
  rw [if_pos ⟨hy1, hm1, hm2, hd1, hd2, hh23.2, hmi59.2, hs59.2,
    by omega, by omega⟩]
  rw [if_pos (trivial : True)]
  congr 1
  unfold mkTs
  rw [hord]
  unfold dtHour dtMinute dtSecond tsSod tsDays epochOrdinal
  omega

theorem digitChar_ne_Z (x : Int) (h0 : 0 ≤ x) (h9 : x ≤ 9) : digitChar x ≠ 'Z' := by
  interval_cases x <;> decide

theorem replaceZ_eq_self (l : List Char) (h : ∀ c ∈ l, c ≠ 'Z') : replaceZ l = l := by
  induction l with
  | nil => rfl
  | cons c rest ih =>
    unfold replaceZ
    rw [if_neg (h c (List.mem_cons_self c rest)), ih (fun x hx => h x (List.mem_cons_of_mem c hx))]

theorem replaceZ_isoformatDT (ts : Int)
    (hlo : -62135596800 ≤ ts) (hhi : ts ≤ 253402300799) :
    replaceZ (isoformatDT ts) = isoformatDT ts := by
  have hn : 1 ≤ tsDays ts + epochOrdinal := by
    unfold tsDays epochOrdinal
    omega
  have hspec := ord2ymd_spec (tsDays ts + epochOrdinal)
    (dtYear ts) (dtMonth ts) (dtDay ts) hn rfl
  obtain ⟨hy1, hm1, hm2, hd1, hd2, hord⟩ := hspec
  have hd31 : dtDay ts ≤ 31 := le_trans hd2 (daysInMonth_bounds _ _).2
  have hy9999 : dtYear ts ≤ 9999 := by
    refine ymd2ord_year_le _ _ _ _ hord ⟨hd1, hd31⟩ ?_
    unfold tsDays epochOrdinal at hord ⊢
    omega
  have hh23 : 0 ≤ dtHour ts ∧ dtHour ts ≤ 23 := by
    unfold dtHour tsSod
    omega
  have hmi59 : 0 ≤ dtMinute ts ∧ dtMinute ts ≤ 59 := by
    unfold dtMinute tsSod
    omega
  have hs59 : 0 ≤ dtSecond ts ∧ dtSecond ts ≤ 59 := by
    unfold dtSecond tsSod
    omega
  refine replaceZ_eq_self _ ?_
  intro c hc
  unfold isoformatDT pad4 pad2 at hc
  simp only [List.cons_append, List.nil_append, List.mem_cons, List.not_mem_nil,
    or_false] at hc
  rcases hc with rfl | rfl | rfl | rfl | rfl | rfl | rfl | rfl | rfl | rfl | rfl | rfl
    | rfl | rfl | rfl | rfl | rfl | rfl | rfl | rfl | rfl | rfl | rfl | rfl | rfl <;>
    first
    | decide
    | exact digitChar_ne_Z _ (by omega) (by omega)

theorem is_prompt_due_isoformat (p : SchedPrompt) (r : Int)
    (hlo : -62135596800 ≤ r) (hhi : r ≤ 253402300799) :
    is_prompt_due { p with enabled := true, nextRunAt := .str (isoformatDT r) } r
      = .ok true := by
  unfold is_prompt_due
  dsimp only
  rw [replaceZ_isoformatDT r hlo hhi, fromisoformat_isoformatDT r hlo hhi]
  simp
  rfl

/-- C5: before the agent is invoked the working directory is either absent
(followed by a full clone) or a valid checkout: preparation succeeds only
with a valid existing checkout, the agent runs only after successful
preparation, and an existing directory that fails git validation is deleted
with `rm -rf` and re-cloned from scratch (its preparation trace is exactly
revparse, rm -rf, clone) — never repaired in place. -/
theorem c5_workdir_invariant (env : ExecEnv) (sid : Option Nat) (st : RepoFS) :
    ((prepare_workdir env sid.isSome st).ok = true →
      (prepare_workdir env sid.isSome st).fs.dirExists = true ∧
      (prepare_workdir env sid.isSome st).fs.validGit = true) ∧
    (Cmd.agent ∈ (execute_prompt env sid st).trace →
      (prepare_workdir env sid.isSome st).ok = true) ∧
    (st.dirExists = true → st.validGit = false →
      (prepare_workdir env sid.isSome st).trace
        = [.gitRevParse, .rmRf, .gitClone]
          ++ (if env.cloneOk then [.gitConfigSafe] else [])) := by
  unfold execute_prompt prepare_workdir
  rcases st with ⟨de, vg, unc, unp, wt, ru⟩
  rcases env with ⟨co, fo, ag, alc, at_, ut, cu, fi, bt⟩
  cases de <;> cases vg <;> cases co <;> cases fo <;> cases sid <;> cases ag <;>
    simp_all [List.mem_append]

/-- C6: a continuation (caller-supplied session id) against a valid working
directory leaves the local state untouched — the preparation trace is only
revparse, remote set-url and safe-directory config, the resulting state
differs from the input only in the refreshed remote URL, and no stash,
fetch or hard reset appears anywhere in the execution's trace; only
non-continuation invocations stash local edits, fetch, and (when the fetch
succeeds) hard-reset to upstream. -/
theorem c6_continuation_preserves_state (env : ExecEnv) (st : RepoFS)
    (hd : st.dirExists = true) (hv : st.validGit = true) :
    (prepare_workdir env true st).trace = [.gitRevParse, .gitRemoteSetUrl, .gitConfigSafe] ∧
    (prepare_workdir env true st).fs = { st with remoteUrl := env.cloneUrl } ∧
    (prepare_workdir env true st).ok = true ∧
    (∀ n : Nat, Cmd.gitStash ∉ (execute_prompt env (some n) st).trace ∧
      Cmd.gitFetch ∉ (execute_prompt env (some n) st).trace ∧
      Cmd.gitResetHard ∉ (execute_prompt env (some n) st).trace) ∧
    (Cmd.gitStash ∈ (prepare_workdir env false st).trace ∧
      Cmd.gitFetch ∈ (prepare_workdir env false st).trace ∧
      (env.fetchOk = true → Cmd.gitResetHard ∈ (prepare_workdir env false st).trace)) := by
  unfold execute_prompt prepare_workdir
  rcases st with ⟨de, vg, unc, unp, wt, ru⟩
  rcases env with ⟨co, fo, ag, alc, at_, ut, cu, fi, bt⟩
  subst hd hv
  cases co <;> cases fo <;> cases ag <;> cases bt <;> cases alc <;>
    simp_all [List.mem_append] <;> (intro n; split_ifs <;> simp_all)

/-- C7: no execution path of `execute_prompt` ever issues a `git push`, and
the Publish Gate `push_repo_changes` pushes exactly when the working
directory exists and has unpushed commits. -/
theorem c7_no_push_in_execute (env : ExecEnv) (sid : Option Nat) (st : RepoFS)
    (pushOk : Bool) :
    Cmd.gitPush ∉ (execute_prompt env sid st).trace ∧
    (Cmd.gitPush ∈ (push_repo_changes pushOk st).trace ↔
      st.dirExists = true ∧ st.unpushed ≠ 0) := by
  unfold execute_prompt prepare_workdir push_repo_changes
  rcases st with ⟨de, vg, unc, unp, wt, ru⟩
  rcases env with ⟨co, fo, ag, alc, at_, ut, cu, fi, bt⟩
  cases de <;> cases vg <;> cases co <;> cases fo <;> cases sid <;> cases ag <;>
    simp_all [List.mem_append] <;> (try split_ifs) <;> simp_all

/-- C9: when the agent exits 0, the returned result has `success = true`
regardless of whether the git status/commit bookkeeping raised (the
exception is caught and logged), with best-effort `hasPendingChanges`
(false when the bookkeeping raised before it could be computed). -/
theorem c9_success_despite_git_errors (env : ExecEnv) (sid : Option Nat) (st : RepoFS)
    (hexit : env.agent = .exits 0)
    (hran : Cmd.agent ∈ (execute_prompt env sid st).trace) :
    (execute_prompt env sid st).result.success = true ∧
    (env.bookkeepingThrows = true →
      (execute_prompt env sid st).result.hasPendingChanges = some false) := by
  unfold execute_prompt prepare_workdir at *
  rcases st with ⟨de, vg, unc, unp, wt, ru⟩
  rcases env with ⟨co, fo, ag, alc, at_, ut, cu, fi, bt⟩
  subst hexit
  cases de <;> cases vg <;> cases co <;> cases fo <;> cases sid <;> cases bt <;>
    simp_all [List.mem_append] <;> (try split_ifs) <;> simp_all

set_option maxHeartbeats 2000000 in
/-- C1 (amended): the coordinator inspects the working tree only when the
agent exited 0 — in that case, when no uncommitted changes exist but
unpushed commits exist, `hasPendingChanges` is true; when the agent exits
nonzero the git inspection is skipped entirely (no `git status` in the
trace) and `hasPendingChanges` is false, contradicting the original
"whatever the agent's exit status" claim (see `c1_counterexample`). -/
theorem c1_pending_changes_amended (env : ExecEnv) (sid : Option Nat) (st : RepoFS) :
    (env.agent = .exits 0 → env.bookkeepingThrows = false →
      env.agentLeavesChanges = false →
      Cmd.agent ∈ (execute_prompt env sid st).trace →
      (execute_prompt env sid st).fs.unpushed ≠ 0 →
      (execute_prompt env sid st).result.hasPendingChanges = some true) ∧
    (∀ code : Int, env.agent = .exits code → code ≠ 0 →
      Cmd.gitStatus ∉ (execute_prompt env sid st).trace ∧
      (Cmd.agent ∈ (execute_prompt env sid st).trace →
        (execute_prompt env sid st).result.hasPendingChanges = some false)) := by
  unfold execute_prompt prepare_workdir
  rcases st with ⟨de, vg, unc, unp, wt, ru⟩
  rcases env with ⟨co, fo, ag, alc, at_, ut, cu, fi, bt⟩
  cases de <;> cases vg <;> cases co <;> cases fo <;> cases sid <;> cases ag <;>
    cases bt <;> cases alc <;> simp_all [List.mem_append] <;> (try split_ifs) <;>
    simp_all

/-- C1 counterexample: the agent runs and exits 1 with a clean tree and one
unpushed commit from a prior execution; the claim requires
`hasPendingChanges = true`, but the source skips the inspection for a
non-zero exit and reports `hasPendingChanges = false`. -/
theorem c1_counterexample :
    (execute_prompt ⟨true, true, .exits 1, false, 5, 5, 1, 9, false⟩ (some 7)
        ⟨true, true, false, 1, 5, 1⟩).result.hasPendingChanges = some false ∧
    Cmd.agent ∈ (execute_prompt ⟨true, true, .exits 1, false, 5, 5, 1, 9, false⟩ (some 7)
        ⟨true, true, false, 1, 5, 1⟩).trace ∧
    (execute_prompt ⟨true, true, .exits 1, false, 5, 5, 1, 9, false⟩ (some 7)
        ⟨true, true, false, 1, 5, 1⟩).fs.uncommitted = false ∧
    (execute_prompt ⟨true, true, .exits 1, false, 5, 5, 1, 9, false⟩ (some 7)
        ⟨true, true, false, 1, 5, 1⟩).fs.unpushed = 1 := by decide

/-- C8: for a prompt that is enabled, due, and has both a repository URL and
a project name, the scheduler's per-prompt body recomputes `nextRunAt`
after the execution attempt on both the normal path and the exception path
(given that `calculate_next_run_at` itself succeeds). -/
theorem c8_next_run_recomputed (offMin now : Int) (eo : Except PyErr Bool)
    (p : CronPrompt) (iso : List Char)
    (hen : p.sched.enabled = true)
    (hdue : is_prompt_due p.sched now = .ok true)
    (hurl : p.gitRemoteUrl.isEmpty = false)
    (hname : p.projectName.isEmpty = false)
    (hcalc : calculate_next_run_at offMin p.sched now = .ok iso) :
    ∃ q o, processPrompt offMin now eo p = .ok (q, o) ∧
      q.sched.nextRunAt = .str iso := by
  unfold processPrompt
  rw [hen, hdue, hurl, hname]
  cases eo with
  | ok success =>
    dsimp only
    rw [show calculate_next_run_at offMin
        ({ p with lastExecution := some ⟨now, success⟩ } : CronPrompt).sched now
        = .ok iso from hcalc]
    exact ⟨_, _, rfl, rfl⟩
  | error e =>
    dsimp only
    rw [show calculate_next_run_at offMin
        ({ p with lastExecution := some ⟨now, false⟩ } : CronPrompt).sched now
        = .ok iso from hcalc]
    exact ⟨_, _, rfl, rfl⟩

/-- C3 (amended): for every valid hour/minute, every real-world UTC offset,
`daily` recurrence, and every evaluation instant in datetime's representable
range, `calculate_next_run_at` returns an instant lying strictly within
(now - 24h, now + 48h) — not always within [now, now + 24h] as originally
claimed, see `c3_counterexample` — and a prompt that is enabled with
`nextRunAt` set to that instant satisfies `is_prompt_due` at that instant. -/
theorem c3_daily_bounds_amended (offMin : Int) (p : SchedPrompt) (now : Int)
    (hsched : p.scheduleType = "daily")
    (hh : 0 ≤ p.timeOfDayHour ∧ p.timeOfDayHour ≤ 23)
    (hm : 0 ≤ p.timeOfDayMinute ∧ p.timeOfDayMinute ≤ 59)
    (ho : -720 ≤ offMin ∧ offMin ≤ 840)
    (hnow : 0 ≤ now ∧ now ≤ 253402000000) :
    ∃ r, calculate_next_run offMin p now = .ok r ∧
      now - 86400 < r ∧ r < now + 2 * 86400 ∧
      is_prompt_due { p with enabled := true, nextRunAt := .str (isoformatDT r) } r
        = .ok true := by
  obtain ⟨r, hr, hb1, hb2⟩ := daily_bounds offMin p now hsched hh hm ho
  exact ⟨r, hr, hb1, hb2, is_prompt_due_isoformat p r (by omega) (by omega)⟩

/-- C3 counterexample: a daily prompt at 23:00 America/Los_Angeles (UTC-8)
evaluated at 2024-01-15T00:00:00Z yields 2024-01-16T07:00:00Z = now + 31h,
outside the claimed interval [now, now + 24h] (the conversion's day offset
skips the occurrence falling later the same UTC day). -/
theorem c3_counterexample :
    calculate_next_run (-480) ⟨23, 0, "daily", 1, 1, true, .none⟩ (mkTs 2024 1 15 0 0 0)
      = .ok (mkTs 2024 1 16 7 0 0) ∧
    ¬ (mkTs 2024 1 16 7 0 0 ≤ mkTs 2024 1 15 0 0 0 + 86400) := by
  exact ⟨rfl, by decide⟩

/-- C3 witness: the amended theorem applied at a concrete daily prompt. -/
theorem c3_witness :
    ∃ r, calculate_next_run 0 ⟨9, 0, "daily", 1, 1, true, .none⟩
        (mkTs 2024 1 15 12 0 0) = .ok r ∧
      mkTs 2024 1 15 12 0 0 - 86400 < r ∧ r < mkTs 2024 1 15 12 0 0 + 2 * 86400 ∧
      is_prompt_due ⟨9, 0, "daily", 1, 1, true, PyVal.str (isoformatDT r)⟩ r
        = .ok true :=
  c3_daily_bounds_amended 0 ⟨9, 0, "daily", 1, 1, true, .none⟩ (mkTs 2024 1 15 12 0 0)
    rfl (by decide) (by decide) (by decide) (by decide)

/-- C10 (amended): when `nextRunAt` is a string, `is_prompt_due` never
raises — it returns a Boolean, and `false` whenever the string does not
parse as an aware ISO timestamp.  (A truthy non-string `nextRunAt` instead
raises `AttributeError`, see `c10_counterexample`.) -/
theorem c10_string_never_raises (p : SchedPrompt) (now : Int) (s : List Char)
    (hs : p.nextRunAt = .str s) :
    (∃ b, is_prompt_due p now = .ok b) ∧
    (fromisoformat (replaceZ s) = none → is_prompt_due p now = .ok false) := by
  unfold is_prompt_due
  rw [hs]
  dsimp only
  constructor
  · split_ifs
    · exact ⟨false, rfl⟩
    · exact ⟨false, rfl⟩
    · cases hp : fromisoformat (replaceZ s) with
      | none => exact ⟨false, rfl⟩
      | some t => exact ⟨decide (t ≤ now), rfl⟩
  · intro hparse
    split_ifs <;> first | rfl | rw [hparse]

/-- C10 counterexample: a truthy non-string `nextRunAt` (the integer 5)
makes `is_prompt_due` raise `AttributeError` at `.replace` — it is not
caught by the `except (ValueError, TypeError)` clause — rather than
returning false as claimed. -/
theorem c10_counterexample :
    is_prompt_due ⟨9, 0, "daily", 1, 1, true, .int 5⟩ 0 = .error .attributeError := rfl

/-- C10 witness: the amended theorem applied to a concrete unparseable
string. -/
theorem c10_witness :
    (∃ b, is_prompt_due ⟨9, 0, "daily", 1, 1, true, .str ['x']⟩ 0 = .ok b) ∧
    (fromisoformat (replaceZ ['x']) = none →
      is_prompt_due ⟨9, 0, "daily", 1, 1, true, .str ['x']⟩ 0 = .ok false) :=
  c10_string_never_raises ⟨9, 0, "daily", 1, 1, true, .str ['x']⟩ 0 ['x'] rfl

/-- C4 witness: a Monday-9:00 weekly prompt evaluated Monday at noon UTC
advances exactly 7 days. -/
theorem c4_witness :
    calculate_next_run 0 ⟨9, 0, "weekly", 1, 1, true, .none⟩ (mkTs 2024 1 15 12 0 0)
      = .ok (mkTs 2024 1 15 9 0 0 + 7 * 86400) :=
  (c4_weekly_advance 0 ⟨9, 0, "weekly", 1, 1, true, .none⟩ (mkTs 2024 1 15 12 0 0)
      (mkTs 2024 1 15 9 0 0) rfl (by decide) (by decide) rfl).1 ⟨by decide, by decide⟩

/-- C1 witness: the amended theorem at a concrete successful run with an
unpushed commit. -/
theorem c1_witness :
    (execute_prompt ⟨true, true, .exits 0, false, 5, 5, 1, 9, false⟩ (some 7)
        ⟨true, true, false, 1, 5, 1⟩).result.hasPendingChanges = some true :=
  (c1_pending_changes_amended ⟨true, true, .exits 0, false, 5, 5, 1, 9, false⟩ (some 7)
      ⟨true, true, false, 1, 5, 1⟩).1 rfl rfl rfl (by decide) (by decide)

/-- C5 witness: the invariant instantiated at an invalid existing
directory. -/
theorem c5_witness :
    ((prepare_workdir ⟨true, true, .exits 0, false, 5, 5, 1, 9, false⟩ true
        ⟨true, false, false, 1, 5, 1⟩).fs.dirExists = true ∧
      (prepare_workdir ⟨true, true, .exits 0, false, 5, 5, 1, 9, false⟩ true
        ⟨true, false, false, 1, 5, 1⟩).fs.validGit = true) ∧
    (prepare_workdir ⟨true, true, .exits 0, false, 5, 5, 1, 9, false⟩ true
        ⟨true, false, false, 1, 5, 1⟩).trace
      = [.gitRevParse, .rmRf, .gitClone]
        ++ (if (⟨true, true, .exits 0, false, 5, 5, 1, 9, false⟩ : ExecEnv).cloneOk
            then [.gitConfigSafe] else []) :=
  ⟨(c5_workdir_invariant ⟨true, true, .exits 0, false, 5, 5, 1, 9, false⟩ (some 7)
      ⟨true, false, false, 1, 5, 1⟩).1 (by decide),
   (c5_workdir_invariant ⟨true, true, .exits 0, false, 5, 5, 1, 9, false⟩ (some 7)
      ⟨true, false, false, 1, 5, 1⟩).2.2 rfl rfl⟩

/-- C6 witness: concrete continuation preserving dirty local state. -/
theorem c6_witness :
    (prepare_workdir ⟨true, true, .exits 0, false, 5, 5, 1, 9, false⟩ true
        ⟨true, true, true, 2, 5, 3⟩).fs
      = { dirExists := true, validGit := true, uncommitted := true, unpushed := 2,
          workTree := 5, remoteUrl := 1 } ∧
    Cmd.gitStash ∈ (prepare_workdir ⟨true, true, .exits 0, false, 5, 5, 1, 9, false⟩ false
        ⟨true, true, true, 2, 5, 3⟩).trace :=
  ⟨(c6_continuation_preserves_state ⟨true, true, .exits 0, false, 5, 5, 1, 9, false⟩
      ⟨true, true, true, 2, 5, 3⟩ rfl rfl).2.1,
   (c6_continuation_preserves_state ⟨true, true, .exits 0, false, 5, 5, 1, 9, false⟩
      ⟨true, true, true, 2, 5, 3⟩ rfl rfl).2.2.2.2.1⟩

/-- C7 witness: the no-push property at a concrete environment. -/
theorem c7_witness :
    Cmd.gitPush ∉ (execute_prompt ⟨true, true, .exits 0, false, 5, 5, 1, 9, false⟩
        (some 1) ⟨true, true, false, 1, 5, 1⟩).trace ∧
    (Cmd.gitPush ∈ (push_repo_changes true ⟨true, true, false, 1, 5, 1⟩).trace ↔
      (⟨true, true, false, 1, 5, 1⟩ : RepoFS).dirExists = true ∧
      (⟨true, true, false, 1, 5, 1⟩ : RepoFS).unpushed ≠ 0) :=
  c7_no_push_in_execute ⟨true, true, .exits 0, false, 5, 5, 1, 9, false⟩ (some 1)
    ⟨true, true, false, 1, 5, 1⟩ true

/-- C8 witness: a concrete due daily prompt gets its `nextRunAt` advanced
to the next day on the success path. -/
theorem c8_witness :
    ∃ q o, processPrompt 0 (mkTs 2024 1 15 12 0 0) (.ok true)
        ⟨⟨9, 0, "daily", 1, 1, true, .str (isoformatDT (mkTs 2024 1 15 9 0 0))⟩,
          ['u'], ['n'], none⟩
      = .ok (q, o) ∧
      q.sched.nextRunAt = .str (isoformatDT (mkTs 2024 1 16 9 0 0)) :=
  c8_next_run_recomputed 0 (mkTs 2024 1 15 12 0 0) (.ok true)
    ⟨⟨9, 0, "daily", 1, 1, true, .str (isoformatDT (mkTs 2024 1 15 9 0 0))⟩,
      ['u'], ['n'], none⟩
    (isoformatDT (mkTs 2024 1 16 9 0 0)) rfl rfl rfl rfl rfl

/-- C9 witness: concrete agent-success run whose git bookkeeping raises. -/
theorem c9_witness :
    (execute_prompt ⟨true, true, .exits 0, false, 5, 5, 1, 9, true⟩ (some 7)
        ⟨true, true, false, 1, 5, 1⟩).result.success = true ∧
    ((⟨true, true, .exits 0, false, 5, 5, 1, 9, true⟩ : ExecEnv).bookkeepingThrows = true →
      (execute_prompt ⟨true, true, .exits 0, false, 5, 5, 1, 9, true⟩ (some 7)
        ⟨true, true, false, 1, 5, 1⟩).result.hasPendingChanges = some false) :=
  c9_success_despite_git_errors ⟨true, true, .exits 0, false, 5, 5, 1, 9, true⟩ (some 7)
    ⟨true, true, false, 1, 5, 1⟩ rfl (by decide)
